import Mathlib

/-!
Shallow embedding of the reverse-mode automatic-differentiation engine in
tile/lang/ast/gradient.cc: the inverted-use-graph builder (ComputeUses), the
memoized gradient propagator (Gradient::GetDerivative), the contraction
differentiation rules (ContractionOp, SumOp, ExtremeOp, DefaultOp), the call
dispatch (CallOp) and the entry point (ComputeGradients).

Expression nodes live in an explicit heap and are referred to by allocation
index, so pointer identity in the C++ source becomes index equality here.
Newly constructed expressions are appended to the heap, which is threaded
through every operation.  Recursion through the reverse graph is modelled
with explicit fuel; running out of fuel is a distinguished error that the
C++ side cannot produce, so every theorem about a successful run is a
statement about the real control flow of the source.
-/

namespace PlaidML

abbrev NodeId := Nat

/-- Index constraints are opaque to the gradient engine; it only copies them. -/
abbrev Constraint := Nat

/-- Polynomial index expressions. The engine constructs fresh indices with
PolyIndex (one per dimension of the wrapped loss); every other polynomial is
opaque to it. -/
inductive PolyExpr where
  | PolyIndex (ordinal : Nat)
  | PolyOpaque (tag : Nat)
deriving DecidableEq

/-- Dimension-size expressions; the engine only copies them between shapes
and output specs. -/
inductive DimExpr where
  | DimInt (value : Int)
  | DimOpaque (tag : Nat)
deriving DecidableEq

/-- Shape attached to every expression by the external shape-inference
collaborator: an ordered list of dimension sizes plus a layout tag. -/
structure Shape where
  dims : List DimExpr
  layout : String
deriving DecidableEq

/-- Mirrors shape.dims_as_exprs() from the source: the dimension sizes as
dimension expressions. -/
def Shape.dims_as_exprs (s : Shape) : List DimExpr := s.dims

def scalarShape : Shape := ⟨[], ""⟩

inductive AggregationOp where
  | SUM
  | ASSIGN
  | MIN
  | MAX
  | PROD
deriving DecidableEq

inductive CombinationOp where
  | NONE
  | MULTIPLY
  | PLUS
  | COND
  | EQ
deriving DecidableEq

/-- TensorSpecExpr pairs a referenced expression with an index spec (input
form, ref present) or an index spec with output dimensions (output form,
ref absent), mirroring the two constructors in the source. -/
structure TensorSpecExpr where
  ref : Option NodeId
  index_spec : List PolyExpr
  dims : List DimExpr
deriving DecidableEq

structure ContractionExpr where
  agg_op : AggregationOp
  combo_op : CombinationOp
  constraints : List Constraint
  inputs : List TensorSpecExpr
  output : TensorSpecExpr
  use_default : Option NodeId
deriving DecidableEq

/-- The closed set of expression variants the gradient engine dispatches on. -/
inductive ExprKind where
  | CallExpr (fn : String) (args : List NodeId)
  | Contraction (cion : ContractionExpr)
  | ParamExpr (name : String)
  | FloatConst (value : Rat)
  | IntConst (value : Int)
  | DimExprExpr (dim : DimExpr)
deriving DecidableEq

structure Node where
  kind : ExprKind
  shape : Shape
deriving DecidableEq

/-- The allocation arena: node identity is the allocation index, standing in
for pointer identity in the source. -/
structure Heap where
  nodes : List Node
deriving DecidableEq

def Heap.get? (h : Heap) (i : NodeId) : Option Node := h.nodes[i]?

def Heap.alloc (h : Heap) (n : Node) : NodeId × Heap := (h.nodes.length, ⟨h.nodes ++ [n]⟩)

def Heap.shapeOf (h : Heap) (i : NodeId) : Shape :=
  match h.get? i with
  | some n => n.shape
  | none => scalarShape

/-- Modelled from the spec: ComputeShape is the external shape-inference
collaborator (not part of this repository's source). For a newly built
Contraction it populates the node's shape from the output spec's dimensions
and the given layout hint. -/
def ContractionExpr.ComputeShape (c : ContractionExpr) (layout : String) : Shape :=
  ⟨c.output.dims, layout⟩

/-- Modelled from the spec: shape inference for elementwise calls built by
MakeCall (external collaborator); the result broadcasts to the argument
shape of greatest rank. -/
def broadcastShape (shapes : List Shape) : Shape :=
  shapes.foldl (fun acc s => if acc.dims.length < s.dims.length then s else acc) scalarShape

/-- Modelled from the spec: MakeCall (from ast/traversal, not under src/)
constructs a CallExpr node over the given arguments and runs external shape
inference on it. -/
def MakeCall (h : Heap) (fn : String) (args : List NodeId) : NodeId × Heap :=
  h.alloc ⟨.CallExpr fn args, broadcastShape (args.map h.shapeOf)⟩

/-- UseInfo records one consumption site: the consuming expression and the
argument position at which the consumption occurs. -/
structure UseInfo where
  expr : NodeId
  idx : Nat
deriving DecidableEq

/-- The use map built by ComputeUses: association list from a used node to
its recorded uses, in recording order. A node with no recorded use has no
entry at all, exactly like the unordered_map in the source. -/
abbrev UsesMap := List (NodeId × List UseInfo)

def usesAppend (m : UsesMap) (used : NodeId) (info : UseInfo) : UsesMap :=
  match m with
  | [] => [(used, [info])]
  | (k, l) :: rest =>
    if k = used then (k, l ++ [info]) :: rest else (k, l) :: usesAppend rest used info

def lookupUses (m : UsesMap) (k : NodeId) : Option (List UseInfo) :=
  match m with
  | [] => none
  | (k0, l) :: rest => if k0 = k then some l else lookupUses rest k

/-- Position-tagged traversal of a list, mirroring the indexed for-loops of
the source. -/
def enumFrom (i : Nat) : List α → List (Nat × α)
  | [] => []
  | x :: xs => (i, x) :: enumFrom (i + 1) xs

/-- The (used, idx) pairs pushed by the Visit overloads of ComputeUses, in
push order: call arguments by position; contraction inputs by position, then
the default expression at position equal to the input count. -/
def nodeChildPairs (n : Node) : List (NodeId × Nat) :=
  match n.kind with
  | .CallExpr _ args => (enumFrom 0 args).map (fun p => (p.2, p.1))
  | .Contraction c =>
    ((enumFrom 0 c.inputs).filterMap
      (fun p => match p.2.ref with
        | some r => some (r, p.1)
        | none => none))
    ++ (match c.use_default with
        | some d => [(d, c.inputs.length)]
        | none => [])
  | _ => []

/-- Explicit-stack traversal of ComputeUses: pop, skip if seen, otherwise
record one use per operand and push the operands. -/
def computeUsesGo (h : Heap) : Nat → List NodeId → List NodeId → UsesMap → UsesMap
  | 0, _, _, m => m
  | _ + 1, [], _, m => m
  | fuel + 1, top :: stack, seen, m =>
    if seen.contains top then computeUsesGo h fuel stack seen m
    else
      match h.get? top with
      | none => computeUsesGo h fuel stack (top :: seen) m
      | some node =>
        let pairs := nodeChildPairs node
        let m1 := pairs.foldl (fun acc p => usesAppend acc p.1 ⟨top, p.2⟩) m
        let stack1 := pairs.foldl (fun s p => p.1 :: s) stack
        computeUsesGo h fuel stack1 (top :: seen) m1

def ComputeUses (h : Heap) (src : NodeId) (fuel : Nat) : UsesMap :=
  computeUsesGo h fuel [src] [] []

/-- The failure conditions of the engine. outOfRange mirrors the
std::out_of_range thrown by unordered_map::at; outOfFuel is an artefact of
the fuel-based embedding with no counterpart in the source. -/
inductive GradError where
  | runtimeError (msg : String)
  | logicError (msg : String)
  | outOfRange (msg : String)
  | internalError (msg : String)
  | outOfFuel
deriving DecidableEq

/-- Propagator state: the arena plus the memoization cache seen_, an
association list from node identity to the identity of its derivative. -/
structure GState where
  heap : Heap
  seen : List (NodeId × NodeId)
deriving DecidableEq

def lookupSeen : List (NodeId × NodeId) → NodeId → Option NodeId
  | [], _ => none
  | (k, v) :: rest, n => if k = n then some v else lookupSeen rest n

/-- The external derivative registry, consumed through lookup-by-name: a
rule receives the forward call node, the output gradient and the argument
list, and returns one gradient per argument (possibly allocating). -/
abbrev Registry := String → Option (NodeId → NodeId → List NodeId → Heap → List NodeId × Heap)

def emptyRegistry : Registry := fun _ => none

/-- Gradient::DefaultOp: the gradient of the default slot is the upstream
gradient, unchanged. -/
def DefaultOp (h : Heap) (dout : NodeId) (_op : ContractionExpr) : NodeId × Heap := (dout, h)

/-- The indexed loop body of Gradient::SumOp: the differentiated position
receives dout re-indexed by the forward output's index spec; every other
position is folded according to the forward combination op, possibly
overriding the derivative's combination op. -/
def sumOpFold (doutSpec : TensorSpecExpr) (combo : CombinationOp) (idx : Nat) :
    List (Nat × TensorSpecExpr) → List TensorSpecExpr × CombinationOp →
    Except GradError (List TensorSpecExpr × CombinationOp)
  | [], acc => .ok acc
  | (i, ts) :: rest, (ins, cur) =>
    if i = idx then sumOpFold doutSpec combo idx rest (ins ++ [doutSpec], cur)
    else
      match combo with
      | .MULTIPLY => sumOpFold doutSpec combo idx rest (ins ++ [ts], .MULTIPLY)
      | .PLUS => sumOpFold doutSpec combo idx rest (ins, .NONE)
      | .COND => .error (.runtimeError ("Gradient of sum of conditionals not supported"))
      | .NONE => .error (.runtimeError
          ("Unexpected multiple inputs found when differentiating contraction with NONE combination op"))
      | .EQ => .error (.runtimeError ("Gradient of sum of equalities not supported"))

/-- Gradient::SumOp, the transpose of a SUM/ASSIGN contraction. -/
def SumOp (h : Heap) (dout : NodeId) (op : ContractionExpr) (idx : Nat) :
    Except GradError (NodeId × Heap) :=
  if idx = op.inputs.length then
    .error (.logicError ("A default tensor fell through to the SumOp case during Gradient"))
  else
    match sumOpFold ⟨some dout, op.output.index_spec, []⟩ op.combo_op idx
        (enumFrom 0 op.inputs) ([], .NONE) with
    | .error e => .error e
    | .ok (ins, combo) =>
      match op.inputs[idx]? with
      | none => .error (.internalError ("input position out of range in SumOp"))
      | some input =>
        match input.ref with
        | none => .error (.internalError ("input spec without referenced expression in SumOp"))
        | some refId =>
          let rshape := h.shapeOf refId
          let dop : ContractionExpr :=
            { agg_op := .SUM, combo_op := combo, constraints := op.constraints,
              inputs := ins,
              output := ⟨none, input.index_spec, rshape.dims_as_exprs⟩,
              use_default := none }
          .ok (h.alloc ⟨.Contraction dop, dop.ComputeShape rshape.layout⟩)

/-- Gradient::ExtremeOp, the transpose of a MIN/MAX contraction: a SUM/COND
contraction over the forward sole input, the forward contraction node itself
and dout, the latter two re-indexed by the forward output's index spec. The
differentiated position is ignored. -/
def ExtremeOp (h : Heap) (dout : NodeId) (opId : NodeId) (op : ContractionExpr) (_idx : Nat) :
    Except GradError (NodeId × Heap) :=
  match op.inputs[0]? with
  | none => .error (.internalError ("contraction without inputs in ExtremeOp"))
  | some input =>
    match input.ref with
    | none => .error (.internalError ("input spec without referenced expression in ExtremeOp"))
    | some refId =>
      let rshape := h.shapeOf refId
      let dop : ContractionExpr :=
        { agg_op := .SUM, combo_op := .COND, constraints := op.constraints,
          inputs := [input,
                     ⟨some opId, op.output.index_spec, []⟩,
                     ⟨some dout, op.output.index_spec, []⟩],
          output := ⟨none, input.index_spec, rshape.dims_as_exprs⟩,
          use_default := none }
      .ok (h.alloc ⟨.Contraction dop, dop.ComputeShape rshape.layout⟩)

/-- Gradient::ContractionOp, dispatching in source order: default slot, EQ
combination, SUM/ASSIGN aggregation, MIN/MAX aggregation, PROD rejection,
then the unreachable catch-all. -/
def ContractionOp (h : Heap) (dout : NodeId) (opId : NodeId) (c : ContractionExpr) (idx : Nat) :
    Except GradError (NodeId × Heap) :=
  if c.use_default.isSome ∧ idx = c.inputs.length then
    .ok (DefaultOp h dout c)
  else if c.combo_op = .EQ then
    .ok (h.alloc ⟨.IntConst 0, scalarShape⟩)
  else if c.agg_op = .SUM ∨ c.agg_op = .ASSIGN then
    SumOp h dout c idx
  else if c.agg_op = .MIN ∨ c.agg_op = .MAX then
    ExtremeOp h dout opId c idx
  else if c.agg_op = .PROD then
    .error (.runtimeError ("PROD AggregationOp does not support differentiation"))
  else
    .error (.runtimeError ("Invalid ContractionExpr in ContractionOp"))

/-- Gradient::CallOp: tuple, element and reshape are recognized but
unimplemented; every other name is resolved through the external registry
and the gradient for the requested argument position is selected. -/
def CallOp (registry : Registry) (h : Heap) (dout : NodeId) (opId : NodeId)
    (fn : String) (args : List NodeId) (idx : Nat) : Except GradError (NodeId × Heap) :=
  if fn = "tuple" then .error (.runtimeError ("Not implemented: tuple in CallOp"))
  else if fn = "element" then .error (.runtimeError ("Not implemented: element in CallOp"))
  else if fn = "reshape" then .error (.runtimeError ("Not implemented: reshape in CallOp"))
  else
    match registry fn with
    | none => .error (.runtimeError ("Unregistered fn in DerivRegistry"))
    | some rule =>
      let p := rule opId dout args h
      match p.1[idx]? with
      | none => .error (.internalError ("derivative position out of range in CallOp"))
      | some g => .ok (g, p.2)

/-- The dispatch on the kind of a consuming node inside GetDerivative:
calls go to CallOp, contractions to ContractionOp, anything else is the
invalid-operation failure of the source. -/
def localGrad (registry : Registry) (h : Heap) (dout : NodeId) (userId : NodeId) (idx : Nat) :
    Except GradError (NodeId × Heap) :=
  match h.get? userId with
  | none => .error (.internalError ("use record refers to a node not in the heap"))
  | some node =>
    match node.kind with
    | .CallExpr fn args => CallOp registry h dout userId fn args idx
    | .Contraction cion => ContractionOp h dout userId cion idx
    | _ => .error (.runtimeError ("Invalid operation type in Gradient::GetDerivative"))

/-- The accumulation loop of GetDerivative over the recorded uses: each use
contributes localGrad of the consumer's derivative, and contributions after
the first are folded with MakeCall add. -/
def gdAccum (gd : GState → NodeId → Except GradError (NodeId × GState)) (registry : Registry) :
    GState → List UseInfo → Option NodeId → Except GradError (Option NodeId × GState)
  | st, [], total => .ok (total, st)
  | st, u :: rest, total =>
    match gd st u.expr with
    | .error e => .error e
    | .ok (dout, st1) =>
      match localGrad registry st1.heap dout u.expr u.idx with
      | .error e => .error e
      | .ok dph =>
        match total with
        | none => gdAccum gd registry ⟨dph.2, st1.seen⟩ rest (some dph.1)
        | some t =>
          let p := MakeCall dph.2 "add" [t, dph.1]
          gdAccum gd registry ⟨p.2, st1.seen⟩ rest (some p.1)

/-- The tail of GetDerivative for a nonempty accumulated total: a total of
nonzero rank is wrapped in a simple_reduce call receiving the total and the
original node; a rank-0 total is returned as-is. -/
def reduceTotal (h : Heap) (t expr : NodeId) : NodeId × Heap :=
  if (h.shapeOf t).dims.length ≠ 0 then MakeCall h "simple_reduce" [t, expr]
  else (t, h)

/-- Gradient::GetDerivative: return the cached derivative if present;
otherwise look up the recorded uses (the unordered_map::at access, which
fails when no use was ever recorded), accumulate the local contributions,
fall back to the literal 0.0 for an empty use list, wrap a nonzero-rank
total in simple_reduce over the total and the original node, and memoize
the result under the node's identity before returning it. -/
def GetDerivative (registry : Registry) (uses : UsesMap) :
    Nat → GState → NodeId → Except GradError (NodeId × GState)
  | 0, _, _ => .error .outOfFuel
  | fuel + 1, st, expr =>
    match lookupSeen st.seen expr with
    | some r => .ok (r, st)
    | none =>
      match lookupUses uses expr with
      | none => .error (.outOfRange ("uses_.at: no use list recorded for expression"))
      | some ulist =>
        match gdAccum (fun s n => GetDerivative registry uses fuel s n) registry st ulist none with
        | .error e => .error e
        | .ok tst =>
          let p : NodeId × Heap :=
            match tst.1 with
            | none => tst.2.heap.alloc ⟨.FloatConst 0, scalarShape⟩
            | some t => reduceTotal tst.2.heap t expr
          .ok (p.1, ⟨p.2, (expr, p.1) :: tst.2.seen⟩)

/-- The Gradient constructor: pre-populate the cache with the seed mapped to
a fresh literal 1.0 constant. -/
def gradientInit (h : Heap) (err : NodeId) : GState :=
  let p := h.alloc ⟨.FloatConst 1, scalarShape⟩
  ⟨p.2, [(err, p.1)]⟩

/-- The seed construction of ComputeGradients: a rank-0 loss is its own
seed; a nonzero-rank loss is wrapped in a SUM/NONE contraction over the loss
indexed by one fresh index per dimension, with a rank-0 output. -/
def seedValue (h : Heap) (loss : NodeId) : NodeId × Heap :=
  let ndims := (h.shapeOf loss).dims.length
  if ndims = 0 then (loss, h)
  else
    let cion : ContractionExpr :=
      { agg_op := .SUM, combo_op := .NONE, constraints := [],
        inputs := [⟨some loss, (List.range ndims).map PolyExpr.PolyIndex, []⟩],
        output := ⟨none, [], []⟩,
        use_default := none }
    h.alloc ⟨.Contraction cion, cion.ComputeShape ""⟩

/-- The result-collection loop of ComputeGradients, in target order. -/
def cgLoop (registry : Registry) (uses : UsesMap) (fuel : Nat) :
    GState → List NodeId → Except GradError (List NodeId × GState)
  | st, [] => .ok ([], st)
  | st, w :: rest =>
    match GetDerivative registry uses fuel st w with
    | .error e => .error e
    | .ok (r, st1) =>
      match cgLoop registry uses fuel st1 rest with
      | .error e => .error e
      | .ok (rs, st2) => .ok (r :: rs, st2)

/-- ComputeGradients: build the seed, invert the graph, seed the cache with
the literal 1.0, then collect the requested derivatives in order. -/
def ComputeGradients (registry : Registry) (fuel : Nat) (h : Heap)
    (wrts : List NodeId) (loss : NodeId) : Except GradError (List NodeId × Heap) :=
  let pv := seedValue h loss
  let uses := ComputeUses pv.2 pv.1 fuel
  let st0 := gradientInit pv.2 pv.1
  match cgLoop registry uses fuel st0 wrts with
  | .error e => .error e
  | .ok rs => .ok (rs.1, rs.2.heap)

/-- Convenience projection for stating properties of a produced node. -/
def nodeKindAt (h : Heap) (i : NodeId) : Option ExprKind :=
  match h.get? i with
  | some n => some n.kind
  | none => none

end PlaidML

namespace PlaidML

deriving instance DecidableEq for Except

/-! ## Helper lemmas about the SumOp loop -/

theorem sumOpFold_multiply (d : TensorSpecExpr) (idx : Nat)
    (pairs : List (Nat × TensorSpecExpr)) :
    ∀ (acc : List TensorSpecExpr) (cur : CombinationOp),
      sumOpFold d CombinationOp.MULTIPLY idx pairs (acc, cur) =
        .ok (acc ++ pairs.map (fun p => if p.1 = idx then d else p.2),
             if ∀ p ∈ pairs, p.1 = idx then cur else CombinationOp.MULTIPLY) := by
  induction pairs with
  | nil => intro acc cur; simp [sumOpFold]
  | cons p rest ih =>
    intro acc cur
    obtain ⟨i, ts⟩ := p
    by_cases hi : i = idx
    · simp only [sumOpFold, if_pos hi, ih, List.map_cons, Except.ok.injEq, Prod.mk.injEq]
      refine ⟨by simp [hi, List.append_assoc], if_congr (by simp [hi]) rfl rfl⟩
    · simp only [sumOpFold, if_neg hi, ih, List.map_cons, Except.ok.injEq, Prod.mk.injEq]
      refine ⟨by simp [hi, List.append_assoc], ?_⟩
      rw [ite_self, if_neg (by simp [hi])]

theorem sumOpFold_plus (d : TensorSpecExpr) (idx : Nat)
    (pairs : List (Nat × TensorSpecExpr)) :
    ∀ (acc : List TensorSpecExpr) (cur : CombinationOp),
      sumOpFold d CombinationOp.PLUS idx pairs (acc, cur) =
        .ok (acc ++ List.replicate (pairs.countP (fun p => p.1 == idx)) d,
             if ∀ p ∈ pairs, p.1 = idx then cur else CombinationOp.NONE) := by
  induction pairs with
  | nil => intro acc cur; simp [sumOpFold]
  | cons p rest ih =>
    intro acc cur
    obtain ⟨i, ts⟩ := p
    by_cases hi : i = idx
    · simp only [sumOpFold, if_pos hi, ih, List.countP_cons, Except.ok.injEq, Prod.mk.injEq]
      refine ⟨?_, if_congr (by simp [hi]) rfl rfl⟩
      simp [hi, List.append_assoc, List.replicate_succ]
    · simp only [sumOpFold, if_neg hi, ih, List.countP_cons, Except.ok.injEq, Prod.mk.injEq]
      refine ⟨by simp [hi], ?_⟩
      rw [ite_self, if_neg (by simp [hi])]

/-- The error raised by the SumOp loop for a non-differentiable combination
op at a non-differentiated position. -/
def sumOpFoldErr : CombinationOp → Option GradError
  | .COND => some (.runtimeError ("Gradient of sum of conditionals not supported"))
  | .NONE => some (.runtimeError
      ("Unexpected multiple inputs found when differentiating contraction with NONE combination op"))
  | .EQ => some (.runtimeError ("Gradient of sum of equalities not supported"))
  | _ => none

theorem sumOpFold_error (d : TensorSpecExpr) (idx : Nat) (combo : CombinationOp)
    (e : GradError) (he : sumOpFoldErr combo = some e) :
    ∀ (pairs : List (Nat × TensorSpecExpr)), (∃ p ∈ pairs, p.1 ≠ idx) →
      ∀ (ins : List TensorSpecExpr) (cur : CombinationOp),
        sumOpFold d combo idx pairs (ins, cur) = .error e := by
  intro pairs
  induction pairs with
  | nil => intro hex; simp at hex
  | cons p rest ih =>
    intro hex ins cur
    obtain ⟨i, ts⟩ := p
    by_cases hi : i = idx
    · have hrest : ∃ p ∈ rest, p.1 ≠ idx := by
        rcases hex with ⟨q, hq, hne⟩
        rcases List.mem_cons.mp hq with rfl | hmem
        · exact absurd hi hne
        · exact ⟨q, hmem, hne⟩
      simp only [sumOpFold, if_pos hi]
      exact ih hrest _ _
    · cases combo <;> simp_all [sumOpFold, sumOpFoldErr]

/-! ## Helper lemmas about indexed enumeration -/

theorem enumFrom_countP (m : Nat) : ∀ (l : List α) (k : Nat),
    (enumFrom k l).countP (fun p => p.1 == m) = if k ≤ m ∧ m < k + l.length then 1 else 0
  | [], k => by
    rw [enumFrom, List.countP_nil, if_neg (by simp only [List.length_nil]; omega)]
  | a :: t, k => by
    simp only [enumFrom, List.countP_cons, beq_iff_eq, List.length_cons]
    rw [enumFrom_countP m t (k + 1)]
    split_ifs <;> omega

theorem enumFrom_not_forall (idx k : Nat) (l : List α) (h : 2 ≤ l.length) :
    ¬ ∀ p ∈ enumFrom k l, p.1 = idx := by
  match l with
  | a :: b :: t =>
    intro hall
    have h1 := hall (k, a) (by simp [enumFrom])
    have h2 := hall (k + 1, b) (by simp [enumFrom])
    omega

theorem enumFrom_exists_ne (idx k : Nat) (l : List α) (h : 2 ≤ l.length) :
    ∃ p ∈ enumFrom k l, p.1 ≠ idx := by
  match l with
  | a :: b :: t =>
    by_cases hk : k = idx
    · exact ⟨(k + 1, b), by simp [enumFrom], by omega⟩
    · exact ⟨(k, a), by simp [enumFrom], hk⟩

/-! ## Concrete fixtures -/

/-- Two scalar parameters, x at node 0 and y at node 1; y is not reachable
from x. -/
def hP : Heap := ⟨[⟨.ParamExpr "x", scalarShape⟩, ⟨.ParamExpr "y", scalarShape⟩]⟩

/-- A PROD contraction with EQ combination over node 0. -/
def cionProdEq : ContractionExpr :=
  { agg_op := .PROD, combo_op := .EQ, constraints := [],
    inputs := [⟨some 0, [], []⟩], output := ⟨none, [], []⟩, use_default := none }

/-- A PROD contraction with a default expression (node 1); position 1 is the
default slot. -/
def cionProdDefault : ContractionExpr :=
  { agg_op := .PROD, combo_op := .MULTIPLY, constraints := [],
    inputs := [⟨some 0, [], []⟩], output := ⟨none, [], []⟩, use_default := some 1 }

/-- A PROD contraction with a non-EQ combination and no default. -/
def cionProdPlain : ContractionExpr :=
  { agg_op := .PROD, combo_op := .MULTIPLY, constraints := [],
    inputs := [⟨some 0, [], []⟩], output := ⟨none, [], []⟩, use_default := none }

/-- A plain single-input SUM contraction over node 0. -/
def cionSumNone : ContractionExpr :=
  { agg_op := .SUM, combo_op := .NONE, constraints := [],
    inputs := [⟨some 0, [], []⟩], output := ⟨none, [], []⟩, use_default := none }

/-- A two-input MAX contraction over nodes 0 and 1. -/
def cionMax2 : ContractionExpr :=
  { agg_op := .MAX, combo_op := .PLUS, constraints := [3],
    inputs := [⟨some 0, [.PolyIndex 0], []⟩, ⟨some 1, [.PolyIndex 0], []⟩],
    output := ⟨none, [], []⟩, use_default := none }

/-! ## Claim C4 -/

/-- C4: contraction differentiation dispatches in a fixed order: the default
slot (idx equal to the input count with a default present) passes dout
through unchanged; otherwise an EQ combination returns the literal integer
zero; otherwise SUM/ASSIGN aggregation goes to SumOp, MIN/MAX aggregation
goes to ExtremeOp, and PROD aggregation fails explicitly. -/
theorem c4_contraction_dispatch (h : Heap) (dout opId : NodeId) (c : ContractionExpr) (idx : Nat) :
    (c.use_default.isSome ∧ idx = c.inputs.length →
       ContractionOp h dout opId c idx = .ok (dout, h)) ∧
    (¬(c.use_default.isSome ∧ idx = c.inputs.length) → c.combo_op = .EQ →
       ContractionOp h dout opId c idx =
         .ok (h.nodes.length, ⟨h.nodes ++ [⟨.IntConst 0, scalarShape⟩]⟩)) ∧
    (¬(c.use_default.isSome ∧ idx = c.inputs.length) → c.combo_op ≠ .EQ →
       c.agg_op = .SUM ∨ c.agg_op = .ASSIGN →
       ContractionOp h dout opId c idx = SumOp h dout c idx) ∧
    (¬(c.use_default.isSome ∧ idx = c.inputs.length) → c.combo_op ≠ .EQ →
       c.agg_op = .MIN ∨ c.agg_op = .MAX →
       ContractionOp h dout opId c idx = ExtremeOp h dout opId c idx) ∧
    (¬(c.use_default.isSome ∧ idx = c.inputs.length) → c.combo_op ≠ .EQ →
       c.agg_op = .PROD →
       ContractionOp h dout opId c idx =
         .error (.runtimeError ("PROD AggregationOp does not support differentiation"))) := by
  refine ⟨fun hd => ?_, fun hd he => ?_, fun hd he ha => ?_, fun hd he ha => ?_,
    fun hd he ha => ?_⟩
  · unfold ContractionOp
    rw [if_pos hd]
    rfl
  · unfold ContractionOp
    rw [if_neg hd, if_pos he]
    rfl
  · unfold ContractionOp
    rw [if_neg hd, if_neg he, if_pos ha]
  · have hsa : ¬(c.agg_op = .SUM ∨ c.agg_op = .ASSIGN) := by
      rcases ha with ha | ha <;> simp [ha]
    unfold ContractionOp
    rw [if_neg hd, if_neg he, if_neg hsa, if_pos ha]
  · have hsa : ¬(c.agg_op = .SUM ∨ c.agg_op = .ASSIGN) := by simp [ha]
    have hmm : ¬(c.agg_op = .MIN ∨ c.agg_op = .MAX) := by simp [ha]
    unfold ContractionOp
    rw [if_neg hd, if_neg he, if_neg hsa, if_neg hmm, if_pos ha]

theorem c4_contraction_dispatch_witness :
    ContractionOp hP 7 9 cionProdDefault 1 = .ok (7, hP) ∧
    ContractionOp hP 7 9 cionProdEq 0 =
      .ok (2, ⟨hP.nodes ++ [⟨.IntConst 0, scalarShape⟩]⟩) ∧
    ContractionOp hP 7 9 cionSumNone 0 = SumOp hP 7 cionSumNone 0 ∧
    ContractionOp hP 7 9 cionMax2 0 = ExtremeOp hP 7 9 cionMax2 0 ∧
    ContractionOp hP 7 9 cionProdPlain 0 =
      .error (.runtimeError ("PROD AggregationOp does not support differentiation")) :=
  ⟨(c4_contraction_dispatch hP 7 9 cionProdDefault 1).1 (by constructor <;> rfl),
   (c4_contraction_dispatch hP 7 9 cionProdEq 0).2.1 (by intro hc; exact absurd hc.2 (by decide)) rfl,
   (c4_contraction_dispatch hP 7 9 cionSumNone 0).2.2.1
     (by intro hc; exact absurd hc.2 (by decide)) (by decide) (Or.inl rfl),
   (c4_contraction_dispatch hP 7 9 cionMax2 0).2.2.2.1
     (by intro hc; exact absurd hc.2 (by decide)) (by decide) (Or.inr rfl),
   (c4_contraction_dispatch hP 7 9 cionProdPlain 0).2.2.2.2
     (by intro hc; exact absurd hc.2 (by decide)) (by decide) rfl⟩

/-! ## Claim C2 -/

/-- C2 counterexample: a PROD-aggregation contraction does not always fail
under differentiation. With EQ combination it yields the literal integer
zero (a numeric result), and at the default slot the upstream gradient is
passed through unchanged, because both dispatch checks precede the PROD
rejection. -/
theorem c2_prod_counterexample :
    ContractionOp hP 7 9 cionProdEq 0 =
      .ok (2, ⟨hP.nodes ++ [⟨.IntConst 0, scalarShape⟩]⟩) ∧
    ContractionOp hP 7 9 cionProdDefault 1 = .ok (7, hP) :=
  ⟨rfl, rfl⟩

/-- C2 (amended): a PROD-aggregation contraction fails with the explicit
unsupported-operation error whenever a non-default slot is differentiated
and the combination op is not EQ; the default slot and the EQ combination
are intercepted earlier in the dispatch. -/
theorem c2_prod_rejected (h : Heap) (dout opId : NodeId) (c : ContractionExpr) (idx : Nat)
    (hprod : c.agg_op = .PROD)
    (hdef : ¬(c.use_default.isSome ∧ idx = c.inputs.length))
    (heq : c.combo_op ≠ .EQ) :
    ContractionOp h dout opId c idx =
      .error (.runtimeError ("PROD AggregationOp does not support differentiation")) := by
  have hsa : ¬(c.agg_op = .SUM ∨ c.agg_op = .ASSIGN) := by simp [hprod]
  have hmm : ¬(c.agg_op = .MIN ∨ c.agg_op = .MAX) := by simp [hprod]
  unfold ContractionOp
  rw [if_neg hdef, if_neg heq, if_neg hsa, if_neg hmm, if_pos hprod]

theorem c2_prod_rejected_witness :
    ContractionOp hP 7 9 cionProdPlain 0 =
      .error (.runtimeError ("PROD AggregationOp does not support differentiation")) :=
  c2_prod_rejected hP 7 9 cionProdPlain 0 rfl
    (by intro hc; exact absurd hc.2 (by decide)) (by decide)

/-! ## Claim C10 -/

/-- C10: the gradient built for a MIN/MAX contraction does not depend on
which non-default input position is differentiated; ExtremeOp always reads
the first input, so any two non-default positions produce identical
gradient expressions. -/
theorem c10_extreme_idx_independent (h : Heap) (dout opId : NodeId) (c : ContractionExpr)
    (i j : Nat)
    (hagg : c.agg_op = .MIN ∨ c.agg_op = .MAX)
    (heq : c.combo_op ≠ .EQ)
    (hdi : ¬(c.use_default.isSome ∧ i = c.inputs.length))
    (hdj : ¬(c.use_default.isSome ∧ j = c.inputs.length)) :
    ContractionOp h dout opId c i = ContractionOp h dout opId c j := by
  have hsa : ¬(c.agg_op = .SUM ∨ c.agg_op = .ASSIGN) := by
    rcases hagg with ha | ha <;> simp [ha]
  unfold ContractionOp
  rw [if_neg hdi, if_neg hdj, if_neg heq, if_neg heq, if_neg hsa, if_neg hsa,
    if_pos hagg, if_pos hagg]
  rfl

theorem c10_extreme_idx_independent_witness :
    ContractionOp hP 7 9 cionMax2 0 = ContractionOp hP 7 9 cionMax2 1 :=
  c10_extreme_idx_independent hP 7 9 cionMax2 0 1 (Or.inr rfl) (by decide)
    (by intro hc; exact absurd hc.2 (by decide))
    (by intro hc; exact absurd hc.2 (by decide))

/-! ## Claim C7 -/

/-- C7: the gradient of a MIN/MAX contraction is a new contraction with SUM
aggregation, COND combination, the forward constraints, and exactly three
inputs in order: the forward sole input, the forward contraction node
re-indexed by the output's index spec, and dout re-indexed by the output's
index spec; its output spec uses the sole input's index spec and shape. -/
theorem c7_extreme_transpose (h : Heap) (dout opId : NodeId) (c : ContractionExpr) (idx : Nat)
    (input : TensorSpecExpr) (refId : NodeId)
    (hagg : c.agg_op = .MIN ∨ c.agg_op = .MAX)
    (heq : c.combo_op ≠ .EQ)
    (hdef : ¬(c.use_default.isSome ∧ idx = c.inputs.length))
    (hin : c.inputs = [input])
    (href : input.ref = some refId) :
    ContractionOp h dout opId c idx =
      .ok (h.nodes.length, ⟨h.nodes ++ [⟨.Contraction
        { agg_op := .SUM, combo_op := .COND, constraints := c.constraints,
          inputs := [input,
                     ⟨some opId, c.output.index_spec, []⟩,
                     ⟨some dout, c.output.index_spec, []⟩],
          output := ⟨none, input.index_spec, (h.shapeOf refId).dims⟩,
          use_default := none },
        ⟨(h.shapeOf refId).dims, (h.shapeOf refId).layout⟩⟩]⟩) := by
  have hsa : ¬(c.agg_op = .SUM ∨ c.agg_op = .ASSIGN) := by
    rcases hagg with ha | ha <;> simp [ha]
  unfold ContractionOp
  rw [if_neg hdef, if_neg heq, if_neg hsa, if_pos hagg]
  unfold ExtremeOp
  rw [hin]
  simp only [List.getElem?_cons_zero]
  rw [href]
  rfl

/-- Rank-1 parameter fixture for C7: node 0 is a vector parameter. -/
def hV : Heap := ⟨[⟨.ParamExpr "v", ⟨[.DimInt 3], "L"⟩⟩]⟩

/-- A single-input MAX contraction reducing node 0 to a scalar. -/
def cionMax1 : ContractionExpr :=
  { agg_op := .MAX, combo_op := .NONE, constraints := [5],
    inputs := [⟨some 0, [.PolyIndex 0], []⟩],
    output := ⟨none, [], []⟩, use_default := none }

theorem c7_extreme_transpose_witness :
    ContractionOp hV 7 9 cionMax1 0 =
      .ok (1, ⟨hV.nodes ++ [⟨.Contraction
        { agg_op := .SUM, combo_op := .COND, constraints := [5],
          inputs := [⟨some 0, [.PolyIndex 0], []⟩, ⟨some 9, [], []⟩, ⟨some 7, [], []⟩],
          output := ⟨none, [.PolyIndex 0], [.DimInt 3]⟩,
          use_default := none },
        ⟨[.DimInt 3], "L"⟩⟩]⟩) :=
  c7_extreme_transpose hV 7 9 cionMax1 0 ⟨some 0, [.PolyIndex 0], []⟩ 0 (Or.inr rfl)
    (by decide) (by intro hc; exact absurd hc.2 (by decide)) rfl rfl

end PlaidML

namespace PlaidML

/-! ## Claim C5 -/

/-- A single-input SUM contraction with MULTIPLY combination over the
vector parameter of hV. -/
def cionMul1 : ContractionExpr :=
  { agg_op := .SUM, combo_op := .MULTIPLY, constraints := [],
    inputs := [⟨some 0, [.PolyIndex 0], []⟩],
    output := ⟨none, [.PolyIndex 0], [.DimInt 3]⟩, use_default := none }

/-- The gradient contraction the engine actually builds for cionMul1. -/
def dopMul1 : ContractionExpr :=
  { agg_op := .SUM, combo_op := .NONE, constraints := [],
    inputs := [⟨some 7, [.PolyIndex 0], []⟩],
    output := ⟨none, [.PolyIndex 0], [.DimInt 3]⟩, use_default := none }

/-- C5 counterexample: for a SUM contraction with MULTIPLY combination and
a single input, the gradient contraction keeps combination NONE, not
MULTIPLY, because the loop only overrides the combination op when it visits
a non-differentiated input position. -/
theorem c5_multiply_counterexample :
    ContractionOp hV 7 9 cionMul1 0 =
      .ok (1, ⟨hV.nodes ++ [⟨.Contraction dopMul1, ⟨[.DimInt 3], "L"⟩⟩]⟩) ∧
    dopMul1.combo_op = CombinationOp.NONE :=
  ⟨rfl, rfl⟩

/-- C5 (amended): for a SUM/ASSIGN contraction with MULTIPLY combination
and at least one non-differentiated input position (at least two inputs),
the gradient with respect to input idx is a new SUM/MULTIPLY contraction
whose input at position idx is dout re-indexed by the forward output's
index spec, whose other inputs are kept as-is, whose constraints are copied
from the forward contraction, and whose output spec uses input idx's own
index spec and shape. -/
theorem c5_multiply_product_rule (h : Heap) (dout opId : NodeId) (c : ContractionExpr)
    (idx : Nat) (input : TensorSpecExpr) (refId : NodeId)
    (hagg : c.agg_op = .SUM ∨ c.agg_op = .ASSIGN)
    (hmul : c.combo_op = .MULTIPLY)
    (hdef : ¬(c.use_default.isSome ∧ idx = c.inputs.length))
    (hidx : idx < c.inputs.length)
    (hlen : 2 ≤ c.inputs.length)
    (hget : c.inputs[idx]? = some input)
    (href : input.ref = some refId) :
    ContractionOp h dout opId c idx =
      .ok (h.nodes.length, ⟨h.nodes ++ [⟨.Contraction
        { agg_op := .SUM, combo_op := .MULTIPLY, constraints := c.constraints,
          inputs := (enumFrom 0 c.inputs).map
            (fun p => if p.1 = idx then ⟨some dout, c.output.index_spec, []⟩ else p.2),
          output := ⟨none, input.index_spec, (h.shapeOf refId).dims⟩,
          use_default := none },
        ⟨(h.shapeOf refId).dims, (h.shapeOf refId).layout⟩⟩]⟩) := by
  have hne : c.combo_op ≠ CombinationOp.EQ := by simp [hmul]
  have hnl : ¬ idx = c.inputs.length := Nat.ne_of_lt hidx
  unfold ContractionOp SumOp
  rw [if_neg hdef, if_neg hne, if_pos hagg, if_neg hnl, hmul, sumOpFold_multiply,
    if_neg (enumFrom_not_forall idx 0 c.inputs hlen), hget]
  simp only [href]
  rfl

/-- Two vector parameters for the two-input fixtures. -/
def hW2 : Heap := ⟨[⟨.ParamExpr "A", ⟨[.DimInt 2], "M"⟩⟩, ⟨.ParamExpr "B", ⟨[.DimInt 4], "M"⟩⟩]⟩

/-- A two-input SUM contraction with MULTIPLY combination. -/
def cionMul2 : ContractionExpr :=
  { agg_op := .SUM, combo_op := .MULTIPLY, constraints := [2],
    inputs := [⟨some 0, [.PolyIndex 0], []⟩, ⟨some 1, [.PolyIndex 1], []⟩],
    output := ⟨none, [.PolyIndex 0], []⟩, use_default := none }

theorem c5_multiply_product_rule_witness :
    ContractionOp hW2 7 9 cionMul2 0 =
      .ok (2, ⟨hW2.nodes ++ [⟨.Contraction
        { agg_op := .SUM, combo_op := .MULTIPLY, constraints := [2],
          inputs := [⟨some 7, [.PolyIndex 0], []⟩, ⟨some 1, [.PolyIndex 1], []⟩],
          output := ⟨none, [.PolyIndex 0], [.DimInt 2]⟩,
          use_default := none },
        ⟨[.DimInt 2], "M"⟩⟩]⟩) :=
  c5_multiply_product_rule hW2 7 9 cionMul2 0 ⟨some 0, [.PolyIndex 0], []⟩ 0
    (Or.inl rfl) rfl (by intro hc; exact absurd hc.2 (by decide)) (by decide) (by decide)
    rfl rfl

/-! ## Claim C6 -/

/-- C6: for a SUM/ASSIGN contraction with PLUS combination, the gradient
with respect to input idx is a new SUM contraction with combination NONE
whose sole input is dout re-indexed by the forward output's index spec (all
non-differentiated inputs are dropped); a COND, NONE or EQ combination at a
non-differentiated position instead fails explicitly in SumOp. -/
theorem c6_plus_rule (h : Heap) (dout opId : NodeId) (c : ContractionExpr) (idx : Nat)
    (input : TensorSpecExpr) (refId : NodeId)
    (hagg : c.agg_op = .SUM ∨ c.agg_op = .ASSIGN)
    (hdef : ¬(c.use_default.isSome ∧ idx = c.inputs.length))
    (hidx : idx < c.inputs.length)
    (hget : c.inputs[idx]? = some input)
    (href : input.ref = some refId) :
    (c.combo_op = .PLUS →
       ContractionOp h dout opId c idx =
         .ok (h.nodes.length, ⟨h.nodes ++ [⟨.Contraction
           { agg_op := .SUM, combo_op := .NONE, constraints := c.constraints,
             inputs := [⟨some dout, c.output.index_spec, []⟩],
             output := ⟨none, input.index_spec, (h.shapeOf refId).dims⟩,
             use_default := none },
           ⟨(h.shapeOf refId).dims, (h.shapeOf refId).layout⟩⟩]⟩)) ∧
    (2 ≤ c.inputs.length →
       (c.combo_op = .COND → SumOp h dout c idx =
          .error (.runtimeError ("Gradient of sum of conditionals not supported"))) ∧
       (c.combo_op = .NONE → SumOp h dout c idx =
          .error (.runtimeError
            ("Unexpected multiple inputs found when differentiating contraction with NONE combination op"))) ∧
       (c.combo_op = .EQ → SumOp h dout c idx =
          .error (.runtimeError ("Gradient of sum of equalities not supported")))) := by
  have hnl : ¬ idx = c.inputs.length := Nat.ne_of_lt hidx
  refine ⟨fun hplus => ?_, fun hlen => ⟨fun hcond => ?_, fun hnone => ?_, fun heqc => ?_⟩⟩
  · have hne : c.combo_op ≠ CombinationOp.EQ := by simp [hplus]
    unfold ContractionOp SumOp
    rw [if_neg hdef, if_neg hne, if_pos hagg, if_neg hnl, hplus, sumOpFold_plus,
      enumFrom_countP, if_pos ⟨Nat.zero_le idx, by omega⟩, ite_self, List.replicate_one,
      hget]
    simp only [href]
    rfl
  · unfold SumOp
    rw [if_neg hnl, hcond,
      sumOpFold_error _ idx .COND _ rfl _ (enumFrom_exists_ne idx 0 c.inputs hlen)]
  · unfold SumOp
    rw [if_neg hnl, hnone,
      sumOpFold_error _ idx .NONE _ rfl _ (enumFrom_exists_ne idx 0 c.inputs hlen)]
  · unfold SumOp
    rw [if_neg hnl, heqc,
      sumOpFold_error _ idx .EQ _ rfl _ (enumFrom_exists_ne idx 0 c.inputs hlen)]

/-- A two-input SUM contraction with PLUS combination. -/
def cionPlus2 : ContractionExpr :=
  { agg_op := .SUM, combo_op := .PLUS, constraints := [4],
    inputs := [⟨some 0, [.PolyIndex 0], []⟩, ⟨some 1, [.PolyIndex 1], []⟩],
    output := ⟨none, [.PolyIndex 0], []⟩, use_default := none }

/-- A two-input SUM contraction with COND combination. -/
def cionCond2 : ContractionExpr :=
  { agg_op := .SUM, combo_op := .COND, constraints := [],
    inputs := [⟨some 0, [.PolyIndex 0], []⟩, ⟨some 1, [.PolyIndex 1], []⟩],
    output := ⟨none, [.PolyIndex 0], []⟩, use_default := none }

theorem c6_plus_rule_witness :
    ContractionOp hW2 7 9 cionPlus2 1 =
      .ok (2, ⟨hW2.nodes ++ [⟨.Contraction
        { agg_op := .SUM, combo_op := .NONE, constraints := [4],
          inputs := [⟨some 7, [.PolyIndex 0], []⟩],
          output := ⟨none, [.PolyIndex 1], [.DimInt 4]⟩,
          use_default := none },
        ⟨[.DimInt 4], "M"⟩⟩]⟩) ∧
    SumOp hW2 7 cionCond2 0 =
      .error (.runtimeError ("Gradient of sum of conditionals not supported")) :=
  ⟨(c6_plus_rule hW2 7 9 cionPlus2 1 ⟨some 1, [.PolyIndex 1], []⟩ 1
      (Or.inl rfl) (by intro hc; exact absurd hc.2 (by decide)) (by decide) rfl rfl).1 rfl,
   (c6_plus_rule hW2 7 9 cionCond2 0 ⟨some 0, [.PolyIndex 0], []⟩ 0
      (Or.inl rfl) (by intro hc; exact absurd hc.2 (by decide)) (by decide) rfl rfl).2
     (by decide) |>.1 rfl⟩

end PlaidML

namespace PlaidML

/-! ## Claim C1 -/

/-- C1: a target with no recorded uses does not resolve to the literal zero
constant. The use-map access (unordered_map::at in the source) has no entry
for a node that is never consumed, so GetDerivative fails with the
out-of-range error before the zero-fallback can run: node 1 (y) is not
reachable from the scalar loss node 0 (x), and ComputeGradients aborts. -/
theorem c1_unreachable_target_raises :
    ComputeGradients emptyRegistry 4 hP [1] 0 =
      .error (.outOfRange ("uses_.at: no use list recorded for expression")) := rfl

/-! ## Claim C8 -/

/-- The implicit full-reduction wrapper the entry point builds around a
nonzero-rank loss: a SUM/NONE contraction whose single input is the loss
indexed by one fresh PolyIndex per dimension, with a rank-0 output. -/
def seedWrapperNode (h : Heap) (loss : NodeId) : Node :=
  ⟨.Contraction
    { agg_op := .SUM, combo_op := .NONE, constraints := [],
      inputs := [⟨some loss,
        (List.range (h.shapeOf loss).dims.length).map PolyExpr.PolyIndex, []⟩],
      output := ⟨none, [], []⟩, use_default := none },
   scalarShape⟩

/-- C8: a rank-0 loss is its own seed and its derivative is the freshly
allocated literal 1.0 constant; a nonzero-rank loss is wrapped in the
implicit SUM/NONE full-reduction contraction with one fresh index per
dimension and a rank-0 output, and the propagator cache is pre-populated
with that wrapper mapped to the literal 1.0 constant. -/
theorem c8_seeding (registry : Registry) (fuel : Nat) (h : Heap) (loss : NodeId) :
    ((h.shapeOf loss).dims.length = 0 →
       seedValue h loss = (loss, h) ∧
       ComputeGradients registry (fuel + 1) h [loss] loss =
         .ok ([h.nodes.length], ⟨h.nodes ++ [⟨.FloatConst 1, scalarShape⟩]⟩)) ∧
    ((h.shapeOf loss).dims.length ≠ 0 →
       seedValue h loss = (h.nodes.length, ⟨h.nodes ++ [seedWrapperNode h loss]⟩) ∧
       gradientInit (seedValue h loss).2 (seedValue h loss).1 =
         ⟨⟨h.nodes ++ [seedWrapperNode h loss, ⟨.FloatConst 1, scalarShape⟩]⟩,
          [(h.nodes.length, h.nodes.length + 1)]⟩) := by
  constructor
  · intro h0
    have hs : seedValue h loss = (loss, h) := by
      unfold seedValue
      rw [if_pos h0]
    refine ⟨hs, ?_⟩
    simp only [ComputeGradients, hs, gradientInit, Heap.alloc, cgLoop, GetDerivative,
      lookupSeen, eq_self_iff_true, if_true]
  · intro hne
    have hs : seedValue h loss = (h.nodes.length, ⟨h.nodes ++ [seedWrapperNode h loss]⟩) := by
      unfold seedValue seedWrapperNode
      rw [if_neg hne]
      rfl
    refine ⟨hs, ?_⟩
    rw [hs]
    unfold gradientInit Heap.alloc
    simp [List.append_assoc]

theorem c8_seeding_witness :
    ComputeGradients emptyRegistry 1 hP [0] 0 =
      .ok ([2], ⟨hP.nodes ++ [⟨.FloatConst 1, scalarShape⟩]⟩) ∧
    seedValue hV 0 = (1, ⟨hV.nodes ++ [seedWrapperNode hV 0]⟩) :=
  ⟨((c8_seeding emptyRegistry 0 hP 0).1 rfl).2,
   ((c8_seeding emptyRegistry 0 hV 0).2 (by decide)).1⟩

/-! ## Claim C9 -/

/-- C9: GetDerivative is memoized by node identity. A successful call
leaves the derivative cached under the node's identity, and a second call
on the same node returns the identical cached result handle with the state
unchanged. -/
theorem c9_memoized (registry : Registry) (uses : UsesMap) (fuel : Nat) (st : GState)
    (n r : NodeId) (st2 : GState)
    (hok : GetDerivative registry uses fuel st n = .ok (r, st2)) :
    lookupSeen st2.seen n = some r ∧
    ∀ f2 : Nat, GetDerivative registry uses (f2 + 1) st2 n = .ok (r, st2) := by
  have hcache : lookupSeen st2.seen n = some r := by
    cases fuel with
    | zero => simp [GetDerivative] at hok
    | succ f =>
      rw [GetDerivative] at hok
      cases hls : lookupSeen st.seen n with
      | some r0 =>
        simp only [hls] at hok
        obtain ⟨h1, h2⟩ := by simpa using hok
        rw [← h2, hls, h1]
      | none =>
        simp only [hls] at hok
        cases hlu : lookupUses uses n with
        | none => simp [hlu] at hok
        | some ul =>
          simp only [hlu] at hok
          cases hacc : gdAccum (fun s m => GetDerivative registry uses f s m) registry st ul
              none with
          | error e => simp [hacc] at hok
          | ok tst =>
            simp only [hacc] at hok
            obtain ⟨h1, h2⟩ := by simpa using hok
            rw [← h2]
            simp [lookupSeen, h1]
  refine ⟨hcache, fun f2 => ?_⟩
  rw [GetDerivative, hcache]

/-- Cache fixture: node 0 already mapped to node 1. -/
def stC9 : GState := ⟨hP, [(0, 1)]⟩

theorem c9_memoized_witness :
    lookupSeen stC9.seen 0 = some 1 ∧
    GetDerivative emptyRegistry [] 3 stC9 0 = .ok (1, stC9) :=
  ⟨(c9_memoized emptyRegistry [] 1 stC9 0 1 stC9 rfl).1,
   (c9_memoized emptyRegistry [] 1 stC9 0 1 stC9 rfl).2 2⟩

/-! ## Claim C3 -/

/-- C3: for a node with recorded uses and no cache entry, GetDerivative
accumulates the local gradient contribution of each recorded use, folding
contributions after the first with MakeCall add; the accumulated total is
then passed through reduceTotal (which wraps a nonzero-rank total in a
simple_reduce call receiving the total and the original node) and memoized.
A node consumed at two distinct sites thus receives the add of its two
local contributions. -/
theorem c3_two_site_accumulation (registry : Registry) (uses : UsesMap) (fuel : Nat)
    (st st1 st2 : GState) (n r1 d1 r2 d2 : NodeId) (h1 h2 : Heap) (u1 u2 : UseInfo)
    (hseen : lookupSeen st.seen n = none)
    (huses : lookupUses uses n = some [u1, u2])
    (hg1 : GetDerivative registry uses fuel st u1.expr = .ok (r1, st1))
    (hl1 : localGrad registry st1.heap r1 u1.expr u1.idx = .ok (d1, h1))
    (hg2 : GetDerivative registry uses fuel ⟨h1, st1.seen⟩ u2.expr = .ok (r2, st2))
    (hl2 : localGrad registry st2.heap r2 u2.expr u2.idx = .ok (d2, h2)) :
    GetDerivative registry uses (fuel + 1) st n =
      (let s := MakeCall h2 "add" [d1, d2]
       let q := reduceTotal s.2 s.1 n
       .ok (q.1, ⟨q.2, (n, q.1) :: st2.seen⟩)) := by
  simp only [GetDerivative, hseen, huses, gdAccum, hg1, hl1, hg2, hl2]

/-- Fixture for C3: a scalar parameter x (node 0) consumed by two separate
SUM contractions (nodes 1 and 2) whose derivatives are pre-cached as the
constants at nodes 3 and 4. -/
def hC3 : Heap := ⟨[⟨.ParamExpr "x", scalarShape⟩,
  ⟨.Contraction cionSumNone, scalarShape⟩, ⟨.Contraction cionSumNone, scalarShape⟩,
  ⟨.FloatConst 1, scalarShape⟩, ⟨.FloatConst 1, scalarShape⟩]⟩

def stC3 : GState := ⟨hC3, [(1, 3), (2, 4)]⟩

def usesC3 : UsesMap := [(0, [⟨1, 0⟩, ⟨2, 0⟩])]

/-- The gradient contraction allocated for one use of x through a cached
consumer derivative d. -/
def dopC3 (d : NodeId) : Node :=
  ⟨.Contraction
    { agg_op := .SUM, combo_op := .NONE, constraints := [],
      inputs := [⟨some d, [], []⟩],
      output := ⟨none, [], []⟩, use_default := none },
   scalarShape⟩

def hC3res : Heap :=
  ⟨hC3.nodes ++ [dopC3 3, dopC3 4, ⟨.CallExpr "add" [5, 6], scalarShape⟩]⟩

theorem c3_two_site_accumulation_witness :
    lookupSeen stC3.seen 0 = none ∧
    lookupUses usesC3 0 = some [⟨1, 0⟩, ⟨2, 0⟩] ∧
    GetDerivative emptyRegistry usesC3 2 stC3 0 =
      .ok (7, ⟨hC3res, (0, 7) :: stC3.seen⟩) :=
  ⟨rfl, rfl,
   c3_two_site_accumulation emptyRegistry usesC3 1 stC3 stC3
     ⟨⟨hC3.nodes ++ [dopC3 3]⟩, stC3.seen⟩ 0 3 5 4 6
     ⟨hC3.nodes ++ [dopC3 3]⟩ ⟨hC3.nodes ++ [dopC3 3, dopC3 4]⟩ ⟨1, 0⟩ ⟨2, 0⟩
     rfl rfl rfl rfl rfl rfl⟩

end PlaidML
